import Mathlib

/-!
Verification development for `monitor.py`, a multi-URL page monitor:
signature extraction (visible text + PDF links + keywords, SHA-256 hashes),
per-URL JSON state files, diff classification and Telegram notification.

The Python source is embedded shallowly: pure helpers become Lean functions,
the file system becomes an explicit association list from paths to contents,
the network collaborators (`requests.get`, Telegram delivery) become an
explicit environment record, and exceptions become `Option`/outcome values.
Library functions the source relies on (`hashlib.sha256`, `json`,
`urllib.parse`, BeautifulSoup text/link extraction) are modelled executably
below, restricted where noted to the shapes of data this program handles.
-/

set_option maxRecDepth 100000

namespace Monitor

/-! ### Bytes and UTF-8

Model of Python's `str.encode("utf-8")`: a byte is a `Nat < 256`; a string is
encoded code point by code point with the standard 1-to-4 byte UTF-8 layout. -/

/-- UTF-8 encoding of a single code point (as Python's `str.encode("utf-8")`
produces for each character). -/
def utf8Char (n : Nat) : List Nat :=
  if n < 0x80 then [n]
  else if n < 0x800 then
    [0xC0 + n / 64, 0x80 + n % 64]
  else if n < 0x10000 then
    [0xE0 + n / 4096, 0x80 + (n / 64) % 64, 0x80 + n % 64]
  else
    [0xF0 + n / 262144, 0x80 + (n / 4096) % 64, 0x80 + (n / 64) % 64, 0x80 + n % 64]

/-- Model of Python's `s.encode("utf-8")`: the UTF-8 bytes of a string. -/
def utf8Encode (s : String) : List Nat :=
  s.data.flatMap (fun c => utf8Char c.toNat)

/-! ### SHA-256 (`hashlib.sha256(...).hexdigest()`)

Executable model of SHA-256 (FIPS 180-4) over 32-bit words represented as
`Nat` reduced modulo `2 ^ 32`. -/

/-- Truncate to a 32-bit word. -/
def w32 (x : Nat) : Nat := x % 4294967296

/-- 32-bit right rotation. -/
def rotr (n x : Nat) : Nat :=
  w32 ((x >>> n) ||| (x <<< (32 - n)))

def shaCh (e f g : Nat) : Nat := (e &&& f) ^^^ ((e ^^^ 4294967295) &&& g)

def shaMaj (a b c : Nat) : Nat := (a &&& b) ^^^ (a &&& c) ^^^ (b &&& c)

def bigSigma0 (x : Nat) : Nat := rotr 2 x ^^^ rotr 13 x ^^^ rotr 22 x

def bigSigma1 (x : Nat) : Nat := rotr 6 x ^^^ rotr 11 x ^^^ rotr 25 x

def smallSigma0 (x : Nat) : Nat := rotr 7 x ^^^ rotr 18 x ^^^ (x >>> 3)

def smallSigma1 (x : Nat) : Nat := rotr 17 x ^^^ rotr 19 x ^^^ (x >>> 10)

/-- The 64 SHA-256 round constants (FIPS 180-4 sect. 4.2.2), written in
decimal. -/
def shaK : List Nat :=
  [1116352408, 1899447441, 3049323471, 3921009573, 961987163, 1508970993,
   2453635748, 2870763221, 3624381080, 310598401, 607225278, 1426881987,
   1925078388, 2162078206, 2614888103, 3248222580, 3835390401, 4022224774,
   264347078, 604807628, 770255983, 1249150122, 1555081692, 1996064986,
   2554220882, 2821834349, 2952996808, 3210313671, 3336571891, 3584528711,
   113926993, 338241895, 666307205, 773529912, 1294757372, 1396182291,
   1695183700, 1986661051, 2177026350, 2456956037, 2730485921, 2820302411,
   3259730800, 3345764771, 3516065817, 3600352804, 4094571909, 275423344,
   430227734, 506948616, 659060556, 883997877, 958139571, 1322822218,
   1537002063, 1747873779, 1955562222, 2024104815, 2227730452, 2361852424,
   2428436474, 2756734187, 3204031479, 3329325298]

/-- Initial SHA-256 hash state (FIPS 180-4 sect. 5.3.3), in decimal. -/
def shaH0 : List Nat :=
  [1779033703, 3144134277, 1013904242, 2773480762,
   1359893119, 2600822924, 528734635, 1541459225]

/-- SHA-256 message padding: append `0x80`, zero bytes to 56 mod 64, then the
bit length as 8 big-endian bytes. -/
def shaPad (msg : List Nat) : List Nat :=
  let len := msg.length
  let padZeros := (55 + 64 - len % 64) % 64
  let bitLen := 8 * len
  msg ++ [0x80] ++ List.replicate padZeros 0 ++
    [w32 (bitLen >>> 56) % 256, (bitLen >>> 48) % 256, (bitLen >>> 40) % 256,
     (bitLen >>> 32) % 256, (bitLen >>> 24) % 256, (bitLen >>> 16) % 256,
     (bitLen >>> 8) % 256, bitLen % 256]

/-- Chunking worker: `acc` holds the current chunk reversed, `k` the room
left in it. Structural recursion so that the kernel can evaluate it. -/
def chunksGo (n : Nat) : List Nat → List Nat → Nat → List (List Nat)
  | [], acc, _ => if acc.isEmpty then [] else [acc.reverse]
  | x :: xs, acc, 0 => acc.reverse :: chunksGo n xs [x] (n - 1)
  | x :: xs, acc, k + 1 => chunksGo n xs (x :: acc) k

/-- Split a list into chunks of `n` elements (`n > 0` for the inputs used). -/
def chunks (n : Nat) (l : List Nat) : List (List Nat) :=
  chunksGo n l [] n

/-- Four big-endian bytes to a 32-bit word. -/
def beWord : List Nat → Nat
  | [a, b, c, d] => a * 16777216 + b * 65536 + c * 256 + d
  | _ => 0

/-- Message schedule: extend 16 words to 64. -/
def shaSchedule (ws : List Nat) (i : Nat) : List Nat :=
  match i with
  | 0 => ws
  | k + 1 =>
    let ws' := shaSchedule ws k
    let t := ws'.length
    let nw := w32 (smallSigma1 (ws'.getD (t - 2) 0) + ws'.getD (t - 7) 0 +
                   smallSigma0 (ws'.getD (t - 15) 0) + ws'.getD (t - 16) 0)
    ws' ++ [nw]

/-- One round of the SHA-256 compression function. -/
def shaRound (st : List Nat) (kw : Nat × Nat) : List Nat :=
  match st with
  | [a, b, c, d, e, f, g, h] =>
    let t1 := w32 (h + bigSigma1 e + shaCh e f g + kw.1 + kw.2)
    let t2 := w32 (bigSigma0 a + shaMaj a b c)
    [w32 (t1 + t2), a, b, c, w32 (d + t1), e, f, g]
  | st => st

/-- Compress one 64-byte block into the running hash state. -/
def shaBlock (h : List Nat) (block : List Nat) : List Nat :=
  let ws := shaSchedule ((chunks 4 block).map beWord) 48
  let st := (shaK.zip ws).foldl (fun s kw => shaRound s kw) h
  (h.zip st).map (fun p => w32 (p.1 + p.2))

/-- SHA-256 digest of a byte list, as eight 32-bit words. -/
def sha256Words (msg : List Nat) : List Nat :=
  (chunks 64 (shaPad msg)).foldl shaBlock shaH0

/-- Lowercase hex digit for `d < 16`. -/
def hexDigit (d : Nat) : Char :=
  "0123456789abcdef".data.getD d '0'

/-- Fixed-width lowercase hex of a word: `n` nibbles, most significant first. -/
def hexFixed (n x : Nat) : List Char :=
  ((List.range n).reverse).map (fun i => hexDigit ((x >>> (4 * i)) % 16))

/-- Model of Python's `hashlib.sha256(b).hexdigest()` on a byte list. -/
def sha256hexBytes (msg : List Nat) : String :=
  ⟨(sha256Words msg).flatMap (hexFixed 8)⟩

/-- `hashlib.sha256(s.encode("utf-8")).hexdigest()` — the only way the source
hashes anything. -/
def sha256hex (s : String) : String :=
  sha256hexBytes (utf8Encode s)

/-! ### Python string helpers -/

/-- Python's `str.split()` whitespace class, restricted to the ASCII
whitespace characters (the pages' markup is handled byte-for-byte the same
way for these). -/
def pyIsSpace (c : Char) : Bool :=
  c = ' ' ∨ c = '\t' ∨ c = '\n' ∨ c = '\r' ∨ c = '\x0b' ∨ c = '\x0c'

/-- Worker for `str.split()`: `cur` is the word in progress, reversed. -/
def pySplitGo : List Char → List Char → List String
  | [], cur => if cur.isEmpty then [] else [⟨cur.reverse⟩]
  | c :: cs, cur =>
    if pyIsSpace c then
      if cur.isEmpty then pySplitGo cs [] else ⟨cur.reverse⟩ :: pySplitGo cs []
    else pySplitGo cs (c :: cur)

/-- Model of Python's `s.split()` (no argument): split on runs of whitespace,
discarding empty fields. -/
def pySplit (s : String) : List String :=
  pySplitGo s.data []

/-- Model of Python's `sep.join(xs)`. -/
def pyJoin (sep : String) (xs : List String) : String :=
  String.intercalate sep xs

/-- Model of Python's `str.lower()`, restricted to the ASCII range (the only
range the source ever compares: its keywords and the `.pdf` suffix are
ASCII). -/
def pyLower (s : String) : String :=
  ⟨s.data.map Char.toLower⟩

/-- Model of Python's `needle in hay` on strings: substring containment. -/
def strContains (hay needle : String) : Bool :=
  hay.data.tails.any (fun t => needle.data.isPrefixOf t)

/-- Python's `<` on strings: lexicographic comparison of code points
(the order `sorted` uses). -/
def charsLtb : List Char → List Char → Bool
  | [], [] => false
  | [], _ :: _ => true
  | _ :: _, [] => false
  | a :: as, b :: bs =>
    if a.toNat < b.toNat then true
    else if b.toNat < a.toNat then false
    else charsLtb as bs

/-- Boolean `a ≤ b` on strings, as the negation of `b < a`. -/
def strLeb (a b : String) : Bool :=
  ! charsLtb b.data a.data

/-- The `≤` relation `sorted` orders by, in `Prop` form. -/
def strLe (a b : String) : Prop :=
  strLeb a b = true

instance : DecidableRel strLe :=
  fun a b => inferInstanceAs (Decidable (strLeb a b = true))

/-- Model of Python's `s.endswith(t)`. -/
def pyEndsWith (s t : String) : Bool :=
  t.data.isSuffixOf s.data

/-! ### HTML document model

The source parses markup with `BeautifulSoup(html, "html.parser")` and then
only (a) drops `script`/`style`/`noscript` elements, (b) joins the text nodes
with `get_text(separator=" ")`, and (c) walks `find_all("a", href=True)` in
document order. The parsed document is embedded directly as a tree of
elements and text nodes; a raw-markup input is represented by its parse. -/

mutual
inductive Node where
  | text (s : String)
  | elem (tag : String) (attrs : List (String × String)) (children : Forest)
deriving Repr
inductive Forest where
  | nil
  | cons (n : Node) (f : Forest)
deriving Repr
end

/-- Build a forest from a list of nodes (notation convenience only). -/
def forestOf : List Node → Forest
  | [] => .nil
  | n :: ns => .cons n (forestOf ns)

/-- A tag removed by the source's `soup(["script", "style", "noscript"])`
pass. -/
def isDecomposed (t : String) : Bool :=
  t = "script" ∨ t = "style" ∨ t = "noscript"

mutual
/-- `tag.decompose()` applied to every `script`/`style`/`noscript` element:
the subtree with those elements removed, everywhere. -/
def decomposeAll : Forest → Forest
  | .nil => .nil
  | .cons (Node.text s) ns => .cons (Node.text s) (decomposeAll ns)
  | .cons (Node.elem t a cs) ns =>
    if isDecomposed t then decomposeAll ns
    else .cons (Node.elem t a (decomposeAll cs)) (decomposeAll ns)
end

mutual
/-- The strings of all text nodes, in document order
(BeautifulSoup's `.strings`). -/
def textNodes : Forest → List String
  | .nil => []
  | .cons (Node.text s) ns => s :: textNodes ns
  | .cons (Node.elem _ _ cs) ns => textNodes cs ++ textNodes ns
end

/-- `soup.get_text(separator=" ")`: the text node strings joined by `" "`. -/
def getText (ns : Forest) : String :=
  pyJoin " " (textNodes ns)

mutual
/-- `soup.find_all("a", href=True)`, keeping each anchor's `href` value, in
document order. -/
def collectHrefs : Forest → List String
  | .nil => []
  | .cons (Node.text _) ns => collectHrefs ns
  | .cons (Node.elem t a cs) ns =>
    (if t = "a" then
      match a.lookup "href" with
      | some h => [h]
      | none => []
     else []) ++ collectHrefs cs ++ collectHrefs ns
end

/-! ### `urllib.parse`: `urlparse` and `urljoin`

Model restricted to hierarchical `scheme://netloc/path?query#fragment` URLs
(the only shape the source handles); `;`-parameters are kept inside the
path. -/

/-- Split at the first occurrence of `c`: `(before, after)` with the marker
dropped, or `none` if absent. -/
def splitFirst (c : Char) (s : List Char) : Option (List Char × List Char) :=
  match s with
  | [] => none
  | x :: xs =>
    if x = c then some ([], xs)
    else (splitFirst c xs).map (fun p => (x :: p.1, p.2))

def isSchemeChar (c : Char) : Bool :=
  c.isAlpha ∨ c.isDigit ∨ c = '+' ∨ c = '-' ∨ c = '.'

/-- Recognise a leading `scheme:`; returns the scheme (lowercased) and the
rest. -/
def splitScheme (s : List Char) : Option (String × List Char) :=
  match splitFirst ':' s with
  | none => none
  | some (before, after) =>
    match before with
    | [] => none
    | c :: cs =>
      if c.isAlpha ∧ cs.all isSchemeChar then some (⟨(c :: cs).map Char.toLower⟩, after)
      else none

/-- Parsed URL components, as `urllib.parse.urlparse` exposes them. -/
structure UrlParts where
  scheme : String
  netloc : String
  path : String
  query : String
  fragment : String
deriving Repr

/-- Model of `urllib.parse.urlparse` for hierarchical URLs. -/
def urlparse (url : String) : UrlParts :=
  let (rest, frag) := match splitFirst '#' url.data with
    | some (r, f) => (r, (⟨f⟩ : String))
    | none => (url.data, "")
  let (scheme, rest) := match splitScheme rest with
    | some (sch, r) => (sch, r)
    | none => ("", rest)
  let (netloc, rest) :=
    match rest with
    | '/' :: '/' :: r =>
      let n := r.takeWhile (fun c => c ≠ '/' ∧ c ≠ '?')
      (⟨n⟩, r.drop n.length)
    | r => (("" : String), r)
  let (path, query) := match splitFirst '?' rest with
    | some (p, q) => ((⟨p⟩ : String), (⟨q⟩ : String))
    | none => ((⟨rest⟩ : String), "")
  ⟨scheme, netloc, path, query, frag⟩

/-- Split a character list on a separator character, keeping empty fields
(Python's `s.split("/")`). -/
def splitOnChar (sep : Char) : List Char → List String
  | [] => [""]
  | c :: cs =>
    if c = sep then "" :: splitOnChar sep cs
    else match splitOnChar sep cs with
      | [] => [⟨[c]⟩]
      | w :: ws => (⟨c :: w.data⟩ : String) :: ws

/-- Does the string start with the given character? -/
def headIs (c : Char) (s : String) : Bool :=
  match s.data with
  | x :: _ => x = c
  | [] => false

/-- RFC 3986 `remove_dot_segments`, on a `/`-separated path string. -/
def removeDotSegments (path : String) : String :=
  let segs := splitOnChar '/' path.data
  let keep := segs.foldl
    (fun acc seg =>
      if seg = "." then acc
      else if seg = ".." then acc.dropLast
      else acc ++ [seg]) ([] : List String)
  let out := String.intercalate "/" keep
  if headIs '/' path ∧ ¬ headIs '/' out then "/" ++ out else out

/-- Merge a relative path reference into a base path (RFC 3986 §5.3). -/
def mergePaths (hasNetloc : Bool) (basePath ref : String) : String :=
  if hasNetloc ∧ basePath = "" then "/" ++ ref
  else
    let chars := basePath.data
    let kept := (chars.reverse.dropWhile (fun c => c ≠ '/')).reverse
    ⟨kept⟩ ++ ref

/-- Reassemble a URL from components (fragments are irrelevant to the
source's uses and are carried through). -/
def urlunsplit (scheme netloc pathq : String) : String :=
  (if scheme = "" then "" else scheme ++ ":") ++
  (if netloc = "" then "" else "//" ++ netloc) ++ pathq

/-- Model of `urllib.parse.urljoin` for hierarchical URLs: absolute
references are returned as given; otherwise the reference is resolved
against the base per RFC 3986 (which CPython follows for these schemes). -/
def urljoin (base url : String) : String :=
  if url = "" then base
  else
    let b := urlparse base
    let u := urlparse url
    if u.scheme ≠ "" ∧ u.scheme ≠ b.scheme then url
    else
      let scheme := if u.scheme ≠ "" then u.scheme else b.scheme
      let uq := if u.query = "" then "" else "?" ++ u.query
      let uf := if u.fragment = "" then "" else "#" ++ u.fragment
      if u.netloc ≠ "" then
        urlunsplit scheme u.netloc (u.path ++ uq ++ uf)
      else if u.path = "" then
        urlunsplit scheme b.netloc
          (b.path ++ (if u.query = "" then (if b.query = "" then "" else "?" ++ b.query) else uq) ++ uf)
      else if headIs '/' u.path then
        urlunsplit scheme b.netloc (removeDotSegments u.path ++ uq ++ uf)
      else
        urlunsplit scheme b.netloc
          (removeDotSegments (mergePaths (b.netloc ≠ "") b.path u.path) ++ uq ++ uf)

/-! ### `sorted(set(...))` -/

/-- Model of Python's `sorted(set(xs))` on strings: deduplicate, then sort
lexicographically by code point ([strLe], which Python's string `<`
implements). -/
def pySortedSet (xs : List String) : List String :=
  (xs.dedup).insertionSort strLe

/-! ### The signature extractor (`extract_signature`) -/

/-- The fixed keyword vocabulary `KEYWORDS` of the source. -/
def KEYWORDS : List String :=
  ["graduatoria", "graduatorie", "vincitori", "scorrimento", "convocazione",
   "convocazioni", "esito"]

/-- The record returned by `extract_signature` (a Python dict with fixed
keys; `ts` is `int(time.time())`, passed in explicitly since the clock is
ambient state). -/
structure Signature where
  text_hash : String
  pdfs_hash : String
  combined_hash : String
  pdfs : List String
  keywords : List String
  ts : Nat
  final_url : String
deriving Repr, DecidableEq

/-- The normalized visible text: `" ".join(soup.get_text(separator=" ").split())`
after decomposing `script`/`style`/`noscript`. -/
def visibleWords (html : Forest) : List String :=
  pySplit (getText (decomposeAll html))

/-- `extract_signature(html, base_url)` from the source, with the parsed
document in place of raw markup and the clock reading `now` passed
explicitly. -/
def extract_signature (html : Forest) (base_url : String) (now : Nat) : Signature :=
  let soup := decomposeAll html
  let text := pyJoin " " (pySplit (getText soup))
  let pdfs := pySortedSet
    (((collectHrefs soup).map (fun h => urljoin base_url h)).filter
      (fun u => pyEndsWith (pyLower u) ".pdf"))
  let lowered := pyLower text
  let found_keys := pySortedSet (KEYWORDS.filter (fun kw => strContains lowered kw))
  let text_hash := sha256hex text
  let pdfs_hash := sha256hex (pyJoin "\n" pdfs)
  let combined := sha256hex (text_hash ++ "|" ++ pdfs_hash)
  { text_hash := text_hash
    pdfs_hash := pdfs_hash
    combined_hash := combined
    pdfs := pdfs
    keywords := found_keys
    ts := now
    final_url := base_url }

/-! ### Identifier derivation (`slugify`, `state_path_for`) -/

/-- A character kept verbatim by `re.sub(r"[^a-zA-Z0-9\-]+", "-", ...)`. -/
def slugKeep (c : Char) : Bool :=
  ('a' ≤ c ∧ c ≤ 'z') ∨ ('A' ≤ c ∧ c ≤ 'Z') ∨ ('0' ≤ c ∧ c ≤ '9') ∨ c = '-'

/-- `re.sub(r"[^a-zA-Z0-9\-]+", "-", s)`: each maximal run of disallowed
characters becomes a single `'-'`. `inRun` records whether the previous
character was part of such a run. -/
def collapseBad (inRun : Bool) : List Char → List Char
  | [] => []
  | c :: cs =>
    if slugKeep c then c :: collapseBad false cs
    else if inRun then collapseBad true cs
    else '-' :: collapseBad true cs

/-- Python's `s.strip(ch)` on a character list: drop the character from both
ends. -/
def stripChar (ch : Char) (s : List Char) : List Char :=
  ((s.dropWhile (· = ch)).reverse.dropWhile (· = ch)).reverse

/-- The naive slug of `slugify` before the length check: netloc and path
joined, non-alphanumerics collapsed, hyphens stripped, lowercased. -/
def slugBase (url : String) : List Char :=
  let p := urlparse url
  let path := ⟨(stripChar '/' p.path.data).map (fun c => if c = '/' then '-' else c)⟩
  let base : String := if path ≠ "" then p.netloc ++ "-" ++ path else p.netloc
  (stripChar '-' (collapseBad false base.data)).map Char.toLower

/-- `slugify(url)` from the source: the naive slug, truncated to 110
characters and suffixed with `-` plus the first 10 hex digits of
`sha256(url)` when it exceeds 120 characters; `"root"` when empty. -/
def slugify (url : String) : String :=
  let base := slugBase url
  let base :=
    if 120 < base.length then
      base.take 110 ++ '-' :: (sha256hex url).data.take 10
    else base
  if base.isEmpty then "root" else ⟨base⟩

/-- The state directory constant `STATE_DIR`. -/
def STATE_DIR : String := "state"

/-- `state_path_for(url)`: `os.path.join(STATE_DIR, slugify(url) + ".json")`. -/
def state_path_for (url : String) : String :=
  STATE_DIR ++ "/" ++ slugify url ++ ".json"

/-! ### JSON (`json.load` / `json.dump`)

JSON values as Python's `json` module produces them, with two recorded
restrictions: numeric literals are modelled as integers (every number this
program writes is an `int`), and object keys keep Python's dict semantics —
first occurrence fixes the position, the last occurrence fixes the value. -/

mutual
inductive Json where
  | null
  | bool (b : Bool)
  | num (n : Int)
  | str (s : String)
  | arr (xs : JList)
  | obj (kvs : JObj)
deriving Repr
inductive JList where
  | nil
  | cons (x : Json) (xs : JList)
deriving Repr
inductive JObj where
  | nil
  | cons (k : String) (v : Json) (rest : JObj)
deriving Repr
end

/-- Dict read: `d.get(k)`, `None` when absent. -/
def jGet : JObj → String → Option Json
  | .nil, _ => none
  | .cons k' v rest, k => if k' = k then some v else jGet rest k

/-- Dict write `d[k] = v`: replace the value at the existing position, or
append. -/
def jSet : JObj → String → Json → JObj
  | .nil, k, v => .cons k v .nil
  | .cons k' v' rest, k, v =>
    if k' = k then .cons k v rest else .cons k' v' (jSet rest k v)

/-- Python truthiness of a JSON value (`if not old:`): `None`, `False`, `0`,
`""`, `[]` and `{}` are falsy. -/
def pyTruthy : Json → Bool
  | .null => false
  | .bool b => b
  | .num n => n ≠ 0
  | .str s => s ≠ ""
  | .arr .nil => false
  | .arr (.cons _ _) => true
  | .obj .nil => false
  | .obj (.cons _ _ _) => true

/-- JSON whitespace. -/
def jsonWs (c : Char) : Bool :=
  c = ' ' ∨ c = '\t' ∨ c = '\n' ∨ c = '\r'

def skipWs (s : List Char) : List Char :=
  s.dropWhile jsonWs

/-- Hex digit value of a character, if any. -/
def hexVal (c : Char) : Option Nat :=
  if '0' ≤ c ∧ c ≤ '9' then some (c.toNat - 48)
  else if 'a' ≤ c ∧ c ≤ 'f' then some (c.toNat - 87)
  else if 'A' ≤ c ∧ c ≤ 'F' then some (c.toNat - 70)
  else none

/-- Parse the body of a JSON string literal (the opening quote already
consumed); `\uXXXX` escapes restricted to non-surrogate code points. -/
def parseStrBody : List Char → List Char → Option (String × List Char)
  | [], _ => none
  | '"' :: r, acc => some (⟨acc.reverse⟩, r)
  | '\\' :: e :: r, acc =>
    match e with
    | '"' => parseStrBody r ('"' :: acc)
    | '\\' => parseStrBody r ('\\' :: acc)
    | '/' => parseStrBody r ('/' :: acc)
    | 'b' => parseStrBody r ('\x08' :: acc)
    | 'f' => parseStrBody r ('\x0c' :: acc)
    | 'n' => parseStrBody r ('\n' :: acc)
    | 'r' => parseStrBody r ('\r' :: acc)
    | 't' => parseStrBody r ('\t' :: acc)
    | 'u' =>
      match r with
      | a :: b :: c :: d :: r' =>
        match hexVal a, hexVal b, hexVal c, hexVal d with
        | some ha, some hb, some hc, some hd =>
          let code := ha * 4096 + hb * 256 + hc * 16 + hd
          if 0xD800 ≤ code ∧ code < 0xE000 then none
          else parseStrBody r' (Char.ofNat code :: acc)
        | _, _, _, _ => none
      | _ => none
    | _ => none
  | c :: r, acc =>
    if c.toNat < 0x20 then none else parseStrBody r (c :: acc)

/-- Parse a JSON integer literal (model restriction: no fractions or
exponents — this program never writes them). -/
def parseNum (s : List Char) : Option (Json × List Char) :=
  let (neg, s') := match s with
    | '-' :: r => (true, r)
    | _ => (false, s)
  let digits := s'.takeWhile Char.isDigit
  let rest := s'.dropWhile Char.isDigit
  if digits.isEmpty then none
  else if 1 < digits.length ∧ digits.headD '0' = '0' then none
  else match rest with
    | '.' :: _ => none
    | 'e' :: _ => none
    | 'E' :: _ => none
    | _ =>
      let n : Nat := digits.foldl (fun a c => a * 10 + (c.toNat - 48)) 0
      some (.num (if neg then -(n : Int) else (n : Int)), rest)

mutual
/-- Fuel-indexed recursive-descent JSON value parser (`json.loads`). -/
def parseVal : Nat → List Char → Option (Json × List Char)
  | 0, _ => none
  | fuel + 1, s =>
    match skipWs s with
    | 'n' :: 'u' :: 'l' :: 'l' :: r => some (.null, r)
    | 't' :: 'r' :: 'u' :: 'e' :: r => some (.bool true, r)
    | 'f' :: 'a' :: 'l' :: 's' :: 'e' :: r => some (.bool false, r)
    | '"' :: r => (parseStrBody r []).map (fun p => (.str p.1, p.2))
    | '[' :: r =>
      (match skipWs r with
       | ']' :: r' => some (.arr .nil, r')
       | _ => (parseElems fuel r).map (fun p => (.arr p.1, p.2)))
    | '{' :: r =>
      (match skipWs r with
       | '}' :: r' => some (.obj .nil, r')
       | _ =>
         (parseMembers fuel r).map
           (fun p => (.obj (p.1.foldl (fun o kv => jSet o kv.1 kv.2) .nil), p.2)))
    | s' => parseNum s'

/-- Comma-separated array elements up to the closing bracket. -/
def parseElems : Nat → List Char → Option (JList × List Char)
  | 0, _ => none
  | fuel + 1, s =>
    match parseVal fuel s with
    | none => none
    | some (v, r) =>
      match skipWs r with
      | ',' :: r' =>
        (parseElems fuel r').map (fun p => (.cons v p.1, p.2))
      | ']' :: r' => some (.cons v .nil, r')
      | _ => none

/-- Comma-separated object members up to the closing brace, in source
order; the caller folds them with [jSet] (dict semantics: first occurrence
fixes the position, last fixes the value). -/
def parseMembers : Nat → List Char → Option (List (String × Json) × List Char)
  | 0, _ => none
  | fuel + 1, s =>
    match skipWs s with
    | '"' :: r =>
      (match parseStrBody r [] with
       | none => none
       | some (k, r') =>
         match skipWs r' with
         | ':' :: r'' =>
           (match parseVal fuel r'' with
            | none => none
            | some (v, r3) =>
              match skipWs r3 with
              | ',' :: r4 =>
                (parseMembers fuel r4).map (fun p => ((k, v) :: p.1, p.2))
              | '}' :: r4 => some ([(k, v)], r4)
              | _ => none)
         | _ => none)
    | _ => none
end

/-- Model of `json.load(f)` on the file's text: parse one value, demand only
trailing whitespace, `none` on any failure (the exception). -/
def jsonLoads (s : String) : Option Json :=
  match parseVal (2 * s.length + 2) s.data with
  | some (v, rest) => if (skipWs rest).isEmpty then some v else none
  | none => none

/-- JSON string-literal escaping as `json.dump(..., ensure_ascii=False)`
performs it. -/
def escapeChar (c : Char) : List Char :=
  if c = '"' then ['\\', '"']
  else if c = '\\' then ['\\', '\\']
  else if c = '\n' then ['\\', 'n']
  else if c = '\t' then ['\\', 't']
  else if c = '\r' then ['\\', 'r']
  else if c = '\x08' then ['\\', 'b']
  else if c = '\x0c' then ['\\', 'f']
  else if c.toNat < 0x20 then
    '\\' :: 'u' :: hexFixed 4 c.toNat
  else [c]

/-- A JSON string literal. -/
def dumpStr (s : String) : String :=
  ⟨'"' :: s.data.flatMap escapeChar ++ ['"']⟩

/-- `2 * lvl` spaces, the `indent=2` prefix at nesting level `lvl`. -/
def indentStr (lvl : Nat) : String :=
  ⟨List.replicate (2 * lvl) ' '⟩

mutual
/-- `json.dumps(v, ensure_ascii=False, indent=2)` at nesting level `lvl`. -/
def dumpVal : Json → Nat → String
  | .null, _ => "null"
  | .bool true, _ => "true"
  | .bool false, _ => "false"
  | .num n, _ => toString n
  | .str s, _ => dumpStr s
  | .arr .nil, _ => "[]"
  | .arr (.cons x xs), lvl =>
    "[\n" ++ dumpItems (.cons x xs) (lvl + 1) ++ "\n" ++ indentStr lvl ++ "]"
  | .obj .nil, _ => "\x7b\x7d"
  | .obj (.cons k v kvs), lvl =>
    "\x7b\n" ++ dumpPairs (.cons k v kvs) (lvl + 1) ++ "\n" ++ indentStr lvl ++ "\x7d"

/-- Indented array items joined by `",\n"`. -/
def dumpItems : JList → Nat → String
  | .nil, _ => ""
  | .cons x .nil, lvl => indentStr lvl ++ dumpVal x lvl
  | .cons x (.cons y ys), lvl =>
    indentStr lvl ++ dumpVal x lvl ++ ",\n" ++ dumpItems (.cons y ys) lvl

/-- Indented object members joined by `",\n"`. -/
def dumpPairs : JObj → Nat → String
  | .nil, _ => ""
  | .cons k v .nil, lvl => indentStr lvl ++ dumpStr k ++ ": " ++ dumpVal v lvl
  | .cons k v (.cons k' v' kvs), lvl =>
    indentStr lvl ++ dumpStr k ++ ": " ++ dumpVal v lvl ++ ",\n" ++
      dumpPairs (.cons k' v' kvs) lvl
end

/-- `json.dump(data, f, ensure_ascii=False, indent=2)`: the text written. -/
def jsonDump (j : Json) : String :=
  dumpVal j 0

/-! ### The state store on an explicit file system -/

/-- The file system visible to the program: an association list from paths
to file contents. -/
def FS := List (String × String)

/-- Contents of a file, if present. -/
def readFile : FS → String → Option String
  | [], _ => none
  | (q, w) :: fs, p => if q = p then some w else readFile fs p

/-- Create or overwrite a file. -/
def writeFile : FS → String → String → FS
  | [], p, v => [(p, v)]
  | (q, w) :: fs, p, v =>
    if q = p then (p, v) :: fs else (q, w) :: writeFile fs p v

/-- `load_state(path)`: `None` when the file does not exist, and — the
`try`/`except` around `json.load` — `None` on any deserialization failure. -/
def load_state (fs : FS) (path : String) : Option Json :=
  match readFile fs path with
  | none => none
  | some text => jsonLoads text

/-- The individual file operations `save_state` performs, in order: the
`open(path, "w")` truncates the file, then `json.dump` writes the record's
text. A crash between them leaves whatever the prefix produced. -/
def save_stateSteps (path : String) (data : Json) : List (FS → FS) :=
  [fun fs => writeFile fs path "",
   fun fs => writeFile fs path (jsonDump data)]

/-- `save_state(path, data)`: all of its file operations applied. -/
def save_state (fs : FS) (path : String) (data : Json) : FS :=
  (save_stateSteps path data).foldl (fun s f => f s) fs

/-- The file-system state after only the first `n` file operations of
`save_state` ran (a crash mid-write). -/
def save_stateCrash (fs : FS) (path : String) (data : Json) (n : Nat) : FS :=
  ((save_stateSteps path data).take n).foldl (fun s f => f s) fs

/-! ### Signatures as JSON records -/

def jlistOfStrs : List String → JList
  | [] => .nil
  | s :: ss => .cons (.str s) (jlistOfStrs ss)

/-- The strings among a JSON list's elements (the program only ever writes
lists of strings in `pdfs`/`keywords`). -/
def strsOfJList : JList → List String
  | .nil => []
  | .cons (.str s) xs => s :: strsOfJList xs
  | .cons _ xs => strsOfJList xs

/-- The dict literal `extract_signature` returns, in construction order. -/
def sigToJson (sig : Signature) : Json :=
  .obj (.cons "text_hash" (.str sig.text_hash)
    (.cons "pdfs_hash" (.str sig.pdfs_hash)
      (.cons "combined_hash" (.str sig.combined_hash)
        (.cons "pdfs" (.arr (jlistOfStrs sig.pdfs))
          (.cons "keywords" (.arr (jlistOfStrs sig.keywords))
            (.cons "ts" (.num sig.ts)
              (.cons "final_url" (.str sig.final_url) .nil)))))))

/-! ### Diff description (`describe_diff`) -/

/-- `old.get(k, [])` read as a string list. -/
def jGetStrList (kvs : JObj) (k : String) : List String :=
  match jGet kvs k with
  | some (.arr xs) => strsOfJList xs
  | _ => []

/-- `sorted(set(new) - set(old))`. -/
def sortedSetDiff (new old : List String) : List String :=
  pySortedSet (new.filter (fun x => ¬ x ∈ old))

/-- `describe_diff(old, new)` from the source: `old` is the loaded record,
`new` the fresh signature. -/
def describe_diff (old : JObj) (new : Signature) : String :=
  let new_pdfs := sortedSetDiff new.pdfs (jGetStrList old "pdfs")
  let removed_pdfs := sortedSetDiff (jGetStrList old "pdfs") new.pdfs
  let new_keys := sortedSetDiff new.keywords (jGetStrList old "keywords")
  let lines : List String :=
    (if ¬ new_pdfs.isEmpty then
       "📄 Nuovi PDF:" :: (new_pdfs.take 10).map (fun u => "- " ++ u) ++
         (if 10 < new_pdfs.length then
            ["... (+" ++ toString (new_pdfs.length - 10) ++ " altri)"]
          else [])
     else []) ++
    (if ¬ removed_pdfs.isEmpty then
       "🗑️ PDF rimossi:" :: (removed_pdfs.take 5).map (fun u => "- " ++ u) ++
         (if 5 < removed_pdfs.length then
            ["... (+" ++ toString (removed_pdfs.length - 5) ++ " altri)"]
          else [])
     else []) ++
    (if ¬ new_keys.isEmpty then
       ["🧭 Nuove parole chiave: " ++ pyJoin ", " new_keys]
     else [])
  let lines := if lines.isEmpty then ["ℹ️ Contenuto variato (testo/link)."] else lines
  pyJoin "\n" lines

/-! ### The orchestrator (`main`)

External effects are an explicit environment: `fetch` yields the parsed
page and the post-redirect URL or a `FetchError` detail string;
`notifyOk text` tells whether `send_telegram(text)` delivers (`false` means
it raises a delivery error). `now` is the run's `int(time.time())` reading. -/

structure Env where
  fetch : String → Except String (Forest × String)
  notifyOk : String → Bool
  now : Nat

/-- The warning text sent when a fetch fails. -/
def warnMsg (url e : String) : String :=
  "⚠️ ADM monitor: errore fetch\nURL: " ++ url ++ "\nDettagli: " ++ e

/-- The acknowledgement text sent on the bootstrap path. -/
def ackMsg (final_url : String) : String :=
  "✅ Monitor attivato per:\n" ++ final_url

/-- The notification text sent on the changed path. -/
def changedMsg (final_url diff_text : String) : String :=
  "🔔 Pagina ADM aggiornata\n" ++ final_url ++ "\n\n" ++ diff_text

/-- How one target's loop iteration ended. The `Bool` on `fetchFailed`,
`bootstrap` and `changed` records whether the notification attempted there
was delivered; only on `changed` does `false` escape (its `try` has no
`except`). `badState` is the uncaught `AttributeError` of
`old.get(...)` on a truthy non-dict record. -/
inductive TOutcome where
  | fetchFailed (warnDelivered : Bool)
  | bootstrap (ackDelivered : Bool)
  | unchanged
  | changed (notifyDelivered : Bool)
  | badState
deriving Repr, DecidableEq

/-- `sig["combined_hash"] == old.get("combined_hash")`: Python `==` between
the fresh hash (a `str`) and an optional JSON value. -/
def hashMatches (h : String) (j : Option Json) : Bool :=
  match j with
  | some (.str t) => h = t
  | _ => false

/-- One iteration of `main`'s target loop. -/
def processTarget (env : Env) (fs : FS) (url : String) : FS × TOutcome :=
  let spath := state_path_for url
  match env.fetch url with
  | .error e => (fs, .fetchFailed (env.notifyOk (warnMsg url e)))
  | .ok (html, final_url) =>
    let sig := extract_signature html final_url env.now
    let old := load_state fs spath
    match old with
    | none =>
      let fs' := save_state fs spath (sigToJson sig)
      (fs', .bootstrap (env.notifyOk (ackMsg final_url)))
    | some oldv =>
      if ¬ pyTruthy oldv then
        let fs' := save_state fs spath (sigToJson sig)
        (fs', .bootstrap (env.notifyOk (ackMsg final_url)))
      else
        match oldv with
        | .obj kvs =>
          if hashMatches sig.combined_hash (jGet kvs "combined_hash") then
            (fs, .unchanged)
          else
            let diff_text := describe_diff kvs sig
            let msg := changedMsg final_url diff_text
            let fs' := save_state fs spath (sigToJson sig)
            (fs', .changed (env.notifyOk msg))
        | _ => (fs, .badState)

/-- Does this outcome abort the run (an exception escaping the loop body)? -/
def aborts : TOutcome → Bool
  | .changed ok => ! ok
  | .badState => true
  | _ => false

/-- `write_combined_state()`: rebuild `state/combined_state.json` from every
`state/*.json` record, skipping unreadable ones. The traversal follows the
store's own order (the source's `os.listdir` order is unspecified). -/
def combinedEntries : FS → JObj
  | [] => .nil
  | (p, text) :: fs =>
    let rest := combinedEntries fs
    if headIs 's' p ∧ (STATE_DIR ++ "/").data.isPrefixOf p.data ∧
       pyEndsWith p ".json" ∧ p ≠ STATE_DIR ++ "/combined_state.json" then
      match jsonLoads text with
      | some (.obj d) =>
        let fn := ⟨p.data.drop (STATE_DIR ++ "/").length⟩
        let key := match jGet d "final_url" with
          | some (.str s) => if s = "" then fn else s
          | _ => fn
        let entry : Json := .obj
          (.cons "ts" ((jGet d "ts").getD .null)
            (.cons "keywords" ((jGet d "keywords").getD (.arr .nil))
              (.cons "pdfs" ((jGet d "pdfs").getD (.arr .nil))
                (.cons "text_hash" ((jGet d "text_hash").getD .null)
                  (.cons "pdfs_hash" ((jGet d "pdfs_hash").getD .null)
                    (.cons "combined_hash" ((jGet d "combined_hash").getD .null)
                      .nil))))))
        jSet rest key entry
      | _ => rest
    else rest

/-- Write the consolidated summary file. -/
def write_combined_state (fs : FS) : FS :=
  writeFile fs (STATE_DIR ++ "/combined_state.json")
    (jsonDump (.obj (combinedEntries fs)))

/-- How a whole run ended: the final file system, whether the process exits
successfully, and the per-target outcomes in processing order (a prefix of
the target list when an exception aborted the loop). -/
structure RunResult where
  fs : FS
  success : Bool
  outcomes : List (String × TOutcome)

/-- The target loop of `main`: sequential, stopping when an iteration's
exception escapes. -/
def runTargets (env : Env) (fs : FS) : List String → FS × Bool × List (String × TOutcome)
  | [] => (fs, true, [])
  | url :: urls =>
    let (fs', o) := processTarget env fs url
    if aborts o then (fs', false, [(url, o)])
    else
      let (fs'', ok, os) := runTargets env fs' urls
      (fs'', ok, (url, o) :: os)

/-- `main()` over an explicit target list: run every target, then — only
when no exception escaped — rebuild the consolidated summary. -/
def mainLoop (urls : List String) (env : Env) (fs : FS) : RunResult :=
  let (fs', ok, os) := runTargets env fs urls
  if ok then ⟨write_combined_state fs', true, os⟩ else ⟨fs', false, os⟩

/-- The concrete `URLS` registry of the source. -/
def URLS : List String :=
  ["https://www.adm.gov.it/portale/-/convocazioni-3",
   "https://www.adm.gov.it/portale/concorso-pubblico-a-complessivi-415-posti-area-assistenti-di-cui-10-riservati-alla-provincia-autonoma-di-bolzano-presso-l-agenzia-delle-dogane-e-dei-monopoli"]

/-- `main()` as invoked by the script. -/
def main (env : Env) (fs : FS) : RunResult :=
  mainLoop URLS env fs

/-- The whole process: module import reads
`os.environ["TELEGRAM_BOT_TOKEN"]` and `os.environ["TELEGRAM_CHAT_ID"]`
before `main` runs; a missing credential raises `KeyError` at startup
(`none`), before any target is processed. -/
def runProgram (osEnv : String → Option String) (urls : List String)
    (env : Env) (fs : FS) : Option RunResult :=
  match osEnv "TELEGRAM_BOT_TOKEN", osEnv "TELEGRAM_CHAT_ID" with
  | some _, some _ => some (mainLoop urls env fs)
  | _, _ => none

/-! ### Concrete documents, environments and stores used in instantiations -/

/-- A minimal sample document: one text node. -/
def sampleDoc : Forest := forestOf [Node.text "x"]

/-- Text with extra whitespace between the words `hello` and `world`. -/
def wsDoc1 : Forest := forestOf [Node.text "hello   world"]

/-- The same words, whitespace distributed differently across text nodes. -/
def wsDoc2 : Forest := forestOf [Node.text " hello ", Node.text "world"]

/-- One word changed with respect to [wsDoc1]. -/
def wordDoc : Forest := forestOf [Node.text "hello word"]

/-- Two PDF anchors in one order. -/
def linkDocA : Forest := forestOf
  [Node.elem "a" [("href", "b.pdf")] .nil, Node.elem "a" [("href", "a.pdf")] .nil]

/-- The same two PDF anchors, swapped. -/
def linkDocB : Forest := forestOf
  [Node.elem "a" [("href", "a.pdf")] .nil, Node.elem "a" [("href", "b.pdf")] .nil]

/-- The anchors of [linkDocB] with one duplicated. -/
def linkDocDup : Forest := forestOf
  [Node.elem "a" [("href", "a.pdf")] .nil, Node.elem "a" [("href", "b.pdf")] .nil,
   Node.elem "a" [("href", "a.pdf")] .nil]

/-- A long URL whose naive slug exceeds 120 characters. -/
def collideUrl1 : String :=
  "http://example.com/" ++ (⟨List.replicate 115 'a'⟩ : String) ++ "x"

/-- Same 110-character slug front as [collideUrl1], different tail. -/
def collideUrl2 : String :=
  "http://example.com/" ++ (⟨List.replicate 115 'a'⟩ : String) ++ "y"

/-- An environment where `http://t1` fetches [sampleDoc] (redirecting to
`http://t1/f`), everything else fails to fetch, and every notification
delivery fails. -/
def envA : Env :=
  { fetch := fun u => if u = "http://t1" then .ok (sampleDoc, "http://t1/f") else .error "down"
    notifyOk := fun _ => false
    now := 7 }

/-- A store holding a record for `http://t1` whose `combined_hash` differs
from any SHA-256 hex digest. -/
def fsChanged : FS := [(state_path_for "http://t1", "\x7b\"combined_hash\": \"old\"\x7d")]

/-- A store whose record for `http://t1` is the empty JSON object. -/
def fsEmptyObj : FS := [(state_path_for "http://t1", "\x7b\x7d")]

/-- A store whose record for `http://t1` is a non-empty object lacking
`combined_hash`. -/
def fsNoHash : FS := [(state_path_for "http://t1", "\x7b\"ts\": 1\x7d")]

/-! ### Order lemmas for the lexicographic comparator -/

theorem char_eq_of_toNat_eq {a b : Char} (h : a.toNat = b.toNat) : a = b :=
  Char.eq_of_val_eq (UInt32.ext h)

theorem charsLtb_irrefl (l : List Char) : charsLtb l l = false := by
  induction l with
  | nil => rfl
  | cons c cs ih => simp [charsLtb, ih]

theorem charsLtb_eq_of_not_lt :
    ∀ {a b : List Char}, charsLtb a b = false → charsLtb b a = false → a = b := by
  intro a
  induction a with
  | nil =>
    intro b h1 _
    cases b with
    | nil => rfl
    | cons d ds => simp [charsLtb] at h1
  | cons c cs ih =>
    intro b h1 h2
    cases b with
    | nil => simp [charsLtb] at h2
    | cons d ds =>
      simp only [charsLtb] at h1 h2
      by_cases hcd : c.toNat < d.toNat
      · simp [hcd] at h1
      · by_cases hdc : d.toNat < c.toNat
        · simp [hdc] at h2
        · have hc : c = d := char_eq_of_toNat_eq (by omega)
          subst hc
          rw [if_neg hcd, if_neg hdc] at h1
          rw [if_neg hdc, if_neg hcd] at h2
          rw [ih h1 h2]

theorem charsLtb_trans :
    ∀ {a b c : List Char}, charsLtb a b = true → charsLtb b c = true →
      charsLtb a c = true := by
  intro a
  induction a with
  | nil =>
    intro b c hab hbc
    cases b with
    | nil => simp [charsLtb] at hab
    | cons y ys =>
      cases c with
      | nil => simp [charsLtb] at hbc
      | cons z zs => rfl
  | cons x xs ih =>
    intro b c hab hbc
    cases b with
    | nil => simp [charsLtb] at hab
    | cons y ys =>
      cases c with
      | nil => simp [charsLtb] at hbc
      | cons z zs =>
        simp only [charsLtb] at hab hbc ⊢
        by_cases hxy : x.toNat < y.toNat
        · by_cases hyz : y.toNat < z.toNat
          · simp [show x.toNat < z.toNat by omega]
          · by_cases hzy : z.toNat < y.toNat
            · simp [hyz, hzy] at hbc
            · simp [show x.toNat < z.toNat by omega]
        · by_cases hyx : y.toNat < x.toNat
          · simp [hxy, hyx] at hab
          · by_cases hyz : y.toNat < z.toNat
            · simp [show x.toNat < z.toNat by omega]
            · by_cases hzy : z.toNat < y.toNat
              · simp [hyz, hzy] at hbc
              · have hxz : ¬ x.toNat < z.toNat := by omega
                have hzx : ¬ z.toNat < x.toNat := by omega
                rw [if_neg hxy, if_neg hyx] at hab
                rw [if_neg hyz, if_neg hzy] at hbc
                rw [if_neg hxz, if_neg hzx]
                exact ih hab hbc

theorem charsLtb_asymm {a b : List Char} (h : charsLtb a b = true) :
    charsLtb b a = false := by
  by_contra hc
  have hba : charsLtb b a = true := by
    cases hv : charsLtb b a with
    | true => rfl
    | false => exact absurd hv hc
  have := charsLtb_trans h hba
  rw [charsLtb_irrefl] at this
  exact Bool.false_ne_true this

theorem string_eq_of_data_eq {a b : String} (h : a.data = b.data) : a = b :=
  congrArg String.mk h

instance : IsTrans String strLe where
  trans a b c hab hbc := by
    simp only [strLe, strLeb, Bool.not_eq_true'] at hab hbc ⊢
    cases h1 : charsLtb a.data b.data with
    | true =>
      cases h2 : charsLtb b.data c.data with
      | true => exact charsLtb_asymm (charsLtb_trans h1 h2)
      | false =>
        have hbc' : b.data = c.data := charsLtb_eq_of_not_lt h2 hbc
        rw [← hbc']
        exact hab
    | false =>
      have hab' : a.data = b.data := charsLtb_eq_of_not_lt h1 hab
      rw [hab']
      exact hbc

instance : IsAntisymm String strLe where
  antisymm a b hab hba := by
    simp only [strLe, strLeb, Bool.not_eq_true'] at hab hba
    exact string_eq_of_data_eq (charsLtb_eq_of_not_lt hba hab)

instance : IsTotal String strLe where
  total a b := by
    simp only [strLe, strLeb, Bool.not_eq_true']
    cases h : charsLtb b.data a.data with
    | true => exact Or.inr (charsLtb_asymm h)
    | false => exact Or.inl rfl

/-- Two lists with the same members produce the same `sorted(set(...))`
result: the output is determined by the membership set alone. -/
theorem pySortedSet_eq_of_mem {l1 l2 : List String}
    (h : ∀ x, x ∈ l1 ↔ x ∈ l2) : pySortedSet l1 = pySortedSet l2 := by
  simp only [pySortedSet]
  apply List.eq_of_perm_of_sorted (r := strLe)
  · refine (List.perm_insertionSort _ _).trans (List.Perm.trans ?_ (List.perm_insertionSort _ _).symm)
    refine (List.perm_ext_iff_of_nodup (List.nodup_dedup _) (List.nodup_dedup _)).2 ?_
    intro x
    simpa [List.mem_dedup] using h x
  · exact List.sorted_insertionSort _ _
  · exact List.sorted_insertionSort _ _

/-! ### File-system lemmas -/

theorem readFile_writeFile_self (fs : FS) (p v : String) :
    readFile (writeFile fs p v) p = some v := by
  induction fs with
  | nil => simp [writeFile, readFile]
  | cons qw fs ih =>
    obtain ⟨q, w⟩ := qw
    by_cases h : q = p
    · simp [writeFile, readFile, h]
    · simp [writeFile, readFile, h, ih]

theorem readFile_save_state (fs : FS) (p : String) (d : Json) :
    readFile (save_state fs p d) p = some (jsonDump d) := by
  simp only [save_state, save_stateSteps, List.foldl]
  exact readFile_writeFile_self _ _ _

/-! ## The claims -/

/-- Claim C2, counterexample: `save_state` is not crash-safe. With the old
record `"OLDRECORD"` on disk, stopping after the first file operation (the
truncating `open(path, "w")`) leaves the file without the old record,
contradicting "on any write error the old record is still intact". -/
theorem C2_counterexample :
    readFile (save_stateCrash [("state/t.json", "OLDRECORD")] "state/t.json"
        (Json.str "new") 1) "state/t.json" ≠ some "OLDRECORD" := by
  decide

/-- Claim C2 (amended): `save_state` opens the target file in mode `"w"`
(truncating it in place) and then writes the record's text; there is no
write-to-temporary-then-replace step. A failure after the truncating open
but before the write completes leaves an empty file — the previously good
record is destroyed, not preserved; only a completed call leaves the new
record. -/
theorem C2_save_state_truncates_in_place (fs : FS) (path : String) (data : Json) :
    readFile (save_stateCrash fs path data 1) path = some "" ∧
    readFile (save_state fs path data) path = some (jsonDump data) :=
  ⟨readFile_writeFile_self fs path "", readFile_save_state fs path data⟩

/-- Claim C3, counterexample: the extractor's output record is not a pure
function of (markup, canonical URL): it also embeds the clock reading
`int(time.time())` in its `ts` field, so two extractions of byte-identical
inputs at different clock readings yield different records. -/
theorem C3_counterexample :
    ¬ (extract_signature sampleDoc "http://e/" 0 = extract_signature sampleDoc "http://e/" 1) :=
  fun h => absurd (congrArg Signature.ts h) (by decide)

/-- Claim C3 (amended): apart from the capture timestamp `ts`, the
extractor is deterministic in (markup, canonical URL): every other field —
in particular `content_hash` (`text_hash`), `link_set_hash` (`pdfs_hash`)
and `combined_hash` — is identical across repeated extractions of
byte-identical inputs, whatever the two clock readings. -/
theorem C3_extract_deterministic_except_ts (html : Forest) (url : String) (t t' : Nat) :
    (extract_signature html url t).text_hash = (extract_signature html url t').text_hash ∧
    (extract_signature html url t).pdfs_hash = (extract_signature html url t').pdfs_hash ∧
    (extract_signature html url t).combined_hash = (extract_signature html url t').combined_hash ∧
    (extract_signature html url t).pdfs = (extract_signature html url t').pdfs ∧
    (extract_signature html url t).keywords = (extract_signature html url t').keywords ∧
    (extract_signature html url t).final_url = (extract_signature html url t').final_url :=
  ⟨rfl, rfl, rfl, rfl, rfl, rfl⟩

/-- Claim C5: for every input, `combined_hash` is exactly the SHA-256 hex
digest of `content_hash ++ "|" ++ link_set_hash` (the same digest used for
the two component hashes), and it depends on nothing but those two hashes:
any two extractions agreeing on `text_hash` and `pdfs_hash` — whatever
their timestamps or other fields — agree on `combined_hash`. -/
theorem C5_combined_hash_formula (html : Forest) (url : String) (now : Nat) :
    (extract_signature html url now).combined_hash =
      sha256hex ((extract_signature html url now).text_hash ++ "|" ++
        (extract_signature html url now).pdfs_hash) ∧
    ∀ (html' : Forest) (url' : String) (now' : Nat),
      (extract_signature html url now).text_hash = (extract_signature html' url' now').text_hash →
      (extract_signature html url now).pdfs_hash = (extract_signature html' url' now').pdfs_hash →
      (extract_signature html url now).combined_hash =
        (extract_signature html' url' now').combined_hash := by
  refine ⟨rfl, ?_⟩
  intro html' url' now' h1 h2
  have e : ∀ (h : Forest) (u : String) (n : Nat),
      (extract_signature h u n).combined_hash =
        sha256hex ((extract_signature h u n).text_hash ++ "|" ++
          (extract_signature h u n).pdfs_hash) := fun _ _ _ => rfl
  rw [e, e, h1, h2]

/-- Claim C5, witness: the formula instantiated on [sampleDoc], with the
hash-dependence part applied across two different timestamps. -/
theorem C5_witness :
    (extract_signature sampleDoc "http://e/" 0).combined_hash =
      (extract_signature sampleDoc "http://e/" 1).combined_hash :=
  (C5_combined_hash_formula sampleDoc "http://e/" 0).2 sampleDoc "http://e/" 1 rfl rfl

/-- Claim C6: `load_state` never propagates a failure: a missing file reads
as `None`, and any file whose text `json.load` cannot parse also reads as
`None` (the `except` clause), so the caller re-bootstraps. -/
theorem C6_load_state_never_raises (fs : FS) (path : String) :
    (readFile fs path = none → load_state fs path = none) ∧
    ∀ text, readFile fs path = some text → jsonLoads text = none →
      load_state fs path = none := by
  constructor
  · intro h
    simp [load_state, h]
  · intro text h hj
    simp [load_state, h, hj]

/-- Claim C6, witness: a truncated record `"{"` is unparsable and reads as
absent. -/
theorem C6_witness :
    jsonLoads "\x7b" = none ∧
    load_state [("state/x.json", "\x7b")] "state/x.json" = none :=
  ⟨rfl, (C6_load_state_never_raises [("state/x.json", "\x7b")] "state/x.json").2 "\x7b" rfl rfl⟩

/-- Claim C7: identifier derivation is deterministic (a pure function of
the URL), its output never exceeds 121 characters (naive slugs of up to
120 characters pass through; longer ones are cut to 110 characters plus
`-` plus 10 digest characters), and the two concrete URLs
[collideUrl1]/[collideUrl2] — distinct URLs whose naive slugs agree on
their first 110 characters and exceed the bound — receive distinct slugs
thanks to the digest suffix. -/
theorem C7_slugify_bounded_and_distinguishing :
    (∀ url : String, slugify url = slugify url ∧ (slugify url).length ≤ 121) ∧
    collideUrl1 ≠ collideUrl2 ∧
    120 < (slugBase collideUrl1).length ∧
    120 < (slugBase collideUrl2).length ∧
    (slugBase collideUrl1).take 110 = (slugBase collideUrl2).take 110 ∧
    slugify collideUrl1 ≠ slugify collideUrl2 := by
  refine ⟨?_, by decide, by decide, by decide, by decide, by decide⟩
  intro url
  refine ⟨rfl, ?_⟩
  simp only [slugify]
  by_cases h : 120 < (slugBase url).length
  · rw [if_pos h]
    by_cases he : ((slugBase url).take 110 ++ '-' :: (sha256hex url).data.take 10).isEmpty
    · rw [if_pos he]
      decide
    · rw [if_neg he]
      show ((slugBase url).take 110 ++ '-' :: (sha256hex url).data.take 10).length ≤ 121
      have h1 : ((slugBase url).take 110).length ≤ 110 := List.length_take_le _ _
      have h2 : ((sha256hex url).data.take 10).length ≤ 10 := List.length_take_le _ _
      simp only [List.length_append, List.length_cons]
      omega
  · rw [if_neg h]
    by_cases he : (slugBase url).isEmpty
    · rw [if_pos he]
      decide
    · rw [if_neg he]
      show (slugBase url).length ≤ 121
      omega

/-- Claim C8: `content_hash` is whitespace-insensitive but word-sensitive.
Whenever two documents have the same visible word sequence — in particular
when whitespace between words is added or removed — their `text_hash` is
identical, whatever the URL or timestamp; and on the concrete pair
[wsDoc1]/[wordDoc], which differ in one word, the hashes differ. -/
theorem C8_content_hash_words :
    (∀ (t1 t2 : Forest) (u1 u2 : String) (n1 n2 : Nat),
        visibleWords t1 = visibleWords t2 →
        (extract_signature t1 u1 n1).text_hash = (extract_signature t2 u2 n2).text_hash) ∧
    visibleWords wsDoc1 = visibleWords wsDoc2 ∧
    (extract_signature wsDoc1 "http://e/" 0).text_hash =
      (extract_signature wsDoc2 "http://e/" 0).text_hash ∧
    (extract_signature wsDoc1 "http://e/" 0).text_hash ≠
      (extract_signature wordDoc "http://e/" 0).text_hash := by
  have key : ∀ (t : Forest) (u : String) (n : Nat),
      (extract_signature t u n).text_hash = sha256hex (pyJoin " " (visibleWords t)) :=
    fun _ _ _ => rfl
  refine ⟨?_, by decide, ?_, by decide⟩
  · intro t1 t2 u1 u2 n1 n2 hw
    rw [key, key, hw]
  · rw [key, key, show visibleWords wsDoc1 = visibleWords wsDoc2 by decide]

/-- Claim C8, witness: the whitespace-insensitivity part applied to the
concrete pair [wsDoc1]/[wsDoc2] at distinct URLs and timestamps. -/
theorem C8_witness :
    (extract_signature wsDoc1 "http://w/" 3).text_hash =
      (extract_signature wsDoc2 "http://v/" 4).text_hash :=
  C8_content_hash_words.1 wsDoc1 wsDoc2 "http://w/" "http://v/" 3 4 (by decide)

/-- The PDF list — hence `pdfs_hash` — depends only on which hrefs occur in
the document, not on their order or multiplicity. -/
theorem pdfs_eq_of_href_mem_iff (t1 t2 : Forest) (u : String) (n1 n2 : Nat)
    (h : ∀ x, x ∈ collectHrefs (decomposeAll t1) ↔ x ∈ collectHrefs (decomposeAll t2)) :
    (extract_signature t1 u n1).pdfs = (extract_signature t2 u n2).pdfs ∧
    (extract_signature t1 u n1).pdfs_hash = (extract_signature t2 u n2).pdfs_hash := by
  have keyP : ∀ (t : Forest) (n : Nat),
      (extract_signature t u n).pdfs =
        pySortedSet (((collectHrefs (decomposeAll t)).map (fun h => urljoin u h)).filter
          (fun x => pyEndsWith (pyLower x) ".pdf")) := fun _ _ => rfl
  have keyH : ∀ (t : Forest) (n : Nat),
      (extract_signature t u n).pdfs_hash =
        sha256hex (pyJoin "\n" ((extract_signature t u n).pdfs)) := fun _ _ => rfl
  have hmem : ∀ x,
      x ∈ ((collectHrefs (decomposeAll t1)).map (fun h => urljoin u h)).filter
            (fun x => pyEndsWith (pyLower x) ".pdf") ↔
      x ∈ ((collectHrefs (decomposeAll t2)).map (fun h => urljoin u h)).filter
            (fun x => pyEndsWith (pyLower x) ".pdf") := by
    intro x
    simp only [List.mem_filter, List.mem_map, h]
  have hp : (extract_signature t1 u n1).pdfs = (extract_signature t2 u n2).pdfs := by
    rw [keyP, keyP]
    exact pySortedSet_eq_of_mem hmem
  exact ⟨hp, by rw [keyH, keyH, hp]⟩

/-- Claim C9: `link_set_hash` is order-independent and
duplicate-independent: permuting the hrefs that occur in the (cleaned)
document does not change `pdfs_hash`, and appending a duplicate of an
existing href does not change it either — only the set of PDF links
matters, since they are deduplicated and sorted before hashing. -/
theorem C9_link_set_hash_order_dup :
    (∀ (t1 t2 : Forest) (u : String) (n1 n2 : Nat),
        (collectHrefs (decomposeAll t1)).Perm (collectHrefs (decomposeAll t2)) →
        (extract_signature t1 u n1).pdfs_hash = (extract_signature t2 u n2).pdfs_hash) ∧
    (∀ (t1 t2 : Forest) (u : String) (n1 n2 : Nat) (l : String),
        l ∈ collectHrefs (decomposeAll t1) →
        collectHrefs (decomposeAll t2) = collectHrefs (decomposeAll t1) ++ [l] →
        (extract_signature t1 u n1).pdfs_hash = (extract_signature t2 u n2).pdfs_hash) := by
  constructor
  · intro t1 t2 u n1 n2 hperm
    exact (pdfs_eq_of_href_mem_iff t1 t2 u n1 n2 (fun x => hperm.mem_iff)).2
  · intro t1 t2 u n1 n2 l hl heq
    refine (pdfs_eq_of_href_mem_iff t1 t2 u n1 n2 ?_).2
    intro x
    rw [heq]
    simp only [List.mem_append, List.mem_singleton]
    constructor
    · exact fun hx => Or.inl hx
    · rintro (hx | hx)
      · exact hx
      · exact hx ▸ hl

/-- Claim C9, witness: swapping the two anchors of [linkDocA] and
duplicating an anchor of [linkDocB] both leave `pdfs_hash` unchanged. -/
theorem C9_witness :
    (extract_signature linkDocA "http://e/" 0).pdfs_hash =
      (extract_signature linkDocB "http://e/" 1).pdfs_hash ∧
    (extract_signature linkDocB "http://e/" 0).pdfs_hash =
      (extract_signature linkDocDup "http://e/" 2).pdfs_hash :=
  ⟨C9_link_set_hash_order_dup.1 linkDocA linkDocB "http://e/" 0 1
      (List.Perm.swap "a.pdf" "b.pdf" []),
   C9_link_set_hash_order_dup.2 linkDocB linkDocDup "http://e/" 0 2 "a.pdf"
      (by decide) (by decide)⟩

/-- Claim C4: whenever a target ends on the CHANGED path — whether its
change notification was delivered (`b = true`) or raised
(`b = false`, the `try`/`finally`) — the new signature is persisted in the
target's state file. -/
theorem C4_changed_always_persists (env : Env) (fs : FS) (url : String)
    (html : Forest) (final_url : String) (b : Bool)
    (hfetch : env.fetch url = .ok (html, final_url))
    (hout : (processTarget env fs url).2 = .changed b) :
    readFile (processTarget env fs url).1 (state_path_for url) =
      some (jsonDump (sigToJson (extract_signature html final_url env.now))) := by
  simp only [processTarget, hfetch] at hout ⊢
  cases hold : load_state fs (state_path_for url) with
  | none =>
    simp [hold] at hout
  | some oldv =>
    simp only [hold] at hout ⊢
    by_cases ht : pyTruthy oldv
    · rw [if_neg (not_not_intro ht)] at hout ⊢
      cases oldv with
      | obj kvs =>
        dsimp only at hout ⊢
        by_cases hm : hashMatches
            (extract_signature html final_url env.now).combined_hash (jGet kvs "combined_hash")
        · rw [if_pos hm] at hout
          simp at hout
        · rw [if_neg hm] at hout ⊢
          exact readFile_save_state _ _ _
      | null => simp at hout
      | bool v => simp at hout
      | num n => simp at hout
      | str s => simp at hout
      | arr xs => simp at hout
    · rw [if_pos ht] at hout
      simp at hout

/-- Claim C4, witness: with the stored hash `"old"` differing from the
fresh digest and every delivery failing, the target is classified CHANGED
with a failed notification, and the new signature is persisted anyway. -/
theorem C4_witness :
    (processTarget envA fsChanged "http://t1").2 = TOutcome.changed false ∧
    readFile (processTarget envA fsChanged "http://t1").1 (state_path_for "http://t1") =
      some (jsonDump (sigToJson (extract_signature sampleDoc "http://t1/f" 7))) := by
  have h2 : (processTarget envA fsChanged "http://t1").2 = TOutcome.changed false := by rfl
  exact ⟨h2, C4_changed_always_persists envA fsChanged "http://t1" sampleDoc "http://t1/f"
    false rfl h2⟩

/-- Claim C10: a record that deserializes to the empty JSON object is falsy
in `if not old:`, so the target bootstraps — the new signature is persisted
and an activation acknowledgement attempted — rather than being classified
changed; the unchanged/changed classification is reached only for a truthy
record, which (short of the uncaught `AttributeError`) is a non-empty
object; and a truthy object lacking `combined_hash` is classified CHANGED,
never unchanged, because the fresh hash (a string) never equals `None`. -/
theorem C10_empty_and_hashless_records (env : Env) (fs : FS) (url : String)
    (html : Forest) (final_url : String)
    (hfetch : env.fetch url = .ok (html, final_url)) :
    (load_state fs (state_path_for url) = some (.obj .nil) →
      (processTarget env fs url).2 = .bootstrap (env.notifyOk (ackMsg final_url)) ∧
      readFile (processTarget env fs url).1 (state_path_for url) =
        some (jsonDump (sigToJson (extract_signature html final_url env.now)))) ∧
    (∀ kvs, load_state fs (state_path_for url) = some (.obj kvs) →
      pyTruthy (.obj kvs) = true →
      jGet kvs "combined_hash" = none →
      (processTarget env fs url).2 =
        .changed (env.notifyOk (changedMsg final_url
          (describe_diff kvs (extract_signature html final_url env.now))))) ∧
    (∀ b, ((processTarget env fs url).2 = .unchanged ∨
           (processTarget env fs url).2 = .changed b) →
      ∃ kvs, load_state fs (state_path_for url) = some (.obj kvs) ∧
        pyTruthy (.obj kvs) = true) := by
  refine ⟨?_, ?_, ?_⟩
  · intro hold
    simp only [processTarget, hfetch, hold]
    rw [if_pos (by simp [pyTruthy])]
    exact ⟨rfl, readFile_save_state _ _ _⟩
  · intro kvs hold htr hget
    simp only [processTarget, hfetch, hold]
    rw [if_neg (not_not_intro htr)]
    rw [if_neg (by simp [hashMatches, hget])]
  · intro b hcls
    simp only [processTarget, hfetch] at hcls
    cases hold : load_state fs (state_path_for url) with
    | none =>
      simp [hold] at hcls
    | some oldv =>
      simp only [hold] at hcls
      by_cases ht : pyTruthy oldv
      · rw [if_neg (not_not_intro ht)] at hcls
        cases oldv with
        | obj kvs => exact ⟨kvs, rfl, ht⟩
        | null => simp at hcls
        | bool v => simp at hcls
        | num n => simp at hcls
        | str s => simp at hcls
        | arr xs => simp at hcls
      · rw [if_pos ht] at hcls
        simp at hcls

/-- Claim C10, witness: the empty-object record bootstraps (with the
acknowledgement failing to deliver under [envA]), and the record
`{"ts": 1}` — truthy, no `combined_hash` — is classified CHANGED. -/
theorem C10_witness :
    (processTarget envA fsEmptyObj "http://t1").2 = TOutcome.bootstrap false ∧
    (processTarget envA fsNoHash "http://t1").2 =
      TOutcome.changed (envA.notifyOk (changedMsg "http://t1/f"
        (describe_diff (.cons "ts" (.num 1) .nil)
          (extract_signature sampleDoc "http://t1/f" 7)))) := by
  constructor
  · exact ((C10_empty_and_hashless_records envA fsEmptyObj "http://t1" sampleDoc
      "http://t1/f" rfl).1 (by rfl)).1
  · exact (C10_empty_and_hashless_records envA fsNoHash "http://t1" sampleDoc
      "http://t1/f" rfl).2.1 (.cons "ts" (.num 1) .nil) (by rfl) (by rfl) (by rfl)

/-- Claim C1, counterexample: a `DeliveryError` while notifying a changed
target is not isolated to that target. With `http://t1` changed and its
notification raising, the run aborts: the second target is never processed
and the process exits with a failure, contradicting "the run continues with
the remaining targets and reports overall success". -/
theorem C1_counterexample :
    (mainLoop ["http://t1", "http://t2"] envA fsChanged).success = false ∧
    (mainLoop ["http://t1", "http://t2"] envA fsChanged).outcomes =
      [("http://t1", TOutcome.changed false)] := by
  exact ⟨by rfl, by rfl⟩

/-- Claim C1 (amended): a missing credential aborts at startup before any
target is processed; a target whose iteration ends in any non-aborting
outcome — fetch failure (warning delivery failures swallowed), bootstrap
(acknowledgement delivery failures swallowed), unchanged, or changed with
the notification delivered — is isolated: the run continues with the
remaining targets and the overall result is whatever they produce. But a
`DeliveryError` on the CHANGED path (and likewise the `AttributeError` on a
truthy non-dict record) escapes the loop: the run stops there, with the
failing target's new signature already persisted, remaining targets
unprocessed, the summary not rebuilt, and a failure exit. -/
theorem C1_fault_isolation_amended :
    (∀ (osEnv : String → Option String) (urls : List String) (env : Env) (fs : FS),
        osEnv "TELEGRAM_BOT_TOKEN" = none ∨ osEnv "TELEGRAM_CHAT_ID" = none →
        runProgram osEnv urls env fs = none) ∧
    (∀ (env : Env) (fs : FS) (url : String) (urls : List String),
        aborts (processTarget env fs url).2 = false →
        mainLoop (url :: urls) env fs =
          ⟨(mainLoop urls env (processTarget env fs url).1).fs,
           (mainLoop urls env (processTarget env fs url).1).success,
           (url, (processTarget env fs url).2) ::
             (mainLoop urls env (processTarget env fs url).1).outcomes⟩) ∧
    (∀ (env : Env) (fs : FS) (url : String) (urls : List String),
        (processTarget env fs url).2 = .changed false →
        mainLoop (url :: urls) env fs =
          ⟨(processTarget env fs url).1, false, [(url, .changed false)]⟩) := by
  refine ⟨?_, ?_, ?_⟩
  · intro osEnv urls env fs h
    rcases h with h | h
    · simp [runProgram, h]
    · cases htok : osEnv "TELEGRAM_BOT_TOKEN" <;> simp [runProgram, h, htok]
  · intro env fs url urls hab
    rcases hp : processTarget env fs url with ⟨fs1, o⟩
    rw [hp] at hab
    simp only [mainLoop, runTargets, hp]
    simp only at hab
    rw [hab]
    rcases hr : runTargets env fs1 urls with ⟨fs2, ok, os⟩
    cases ok <;> simp
  · intro env fs url urls hout
    rcases hp : processTarget env fs url with ⟨fs1, o⟩
    rw [hp] at hout
    simp only at hout
    subst hout
    simp [mainLoop, runTargets, hp, aborts]

/-- Claim C1, witness: a missing token aborts the run before any target; a
fetch failure is isolated (the single-target run still succeeds); a failed
changed-path notification aborts the run with a failure result. -/
theorem C1_witness :
    runProgram (fun _ => none) ["http://t1"] envA [] = none ∧
    mainLoop ["http://t2"] envA [] =
      ⟨(mainLoop [] envA (processTarget envA [] "http://t2").1).fs,
       (mainLoop [] envA (processTarget envA [] "http://t2").1).success,
       ("http://t2", (processTarget envA [] "http://t2").2) ::
         (mainLoop [] envA (processTarget envA [] "http://t2").1).outcomes⟩ ∧
    mainLoop ["http://t1"] envA fsChanged =
      ⟨(processTarget envA fsChanged "http://t1").1, false,
       [("http://t1", TOutcome.changed false)]⟩ := by
  refine ⟨?_, ?_, ?_⟩
  · exact C1_fault_isolation_amended.1 (fun _ => none) ["http://t1"] envA []
      (Or.inl rfl)
  · exact C1_fault_isolation_amended.2.1 envA [] "http://t2" [] (by rfl)
  · exact C1_fault_isolation_amended.2.2 envA fsChanged "http://t1" [] (by rfl)

end Monitor
